import Mathlib

/-!
Verification of the stock descriptive-statistics pipeline
(`StockDescriptiveStats.calculate_indicators` and
`calculate_descriptive_stats`): a shallow embedding of the CRSP/Compustat
link merge, the three-tier as-of join, the book-equity fallback chain, the
momentum computation, the monthly panel counts and final filter, and the
cross-sectional statistics engine, together with theorems settling the
frozen claims about them.

Conventions of the embedding:
 - pandas Timestamps are modelled as `Int` day numbers (days since
   1970-01-01); `yearOf` / `monthOf` implement the proleptic Gregorian
   civil-from-days conversion, so `.dt.year` / `.dt.month` on concrete
   dates evaluate exactly;
 - float columns that may hold NaN are modelled as `Option ℚ`; pandas
   arithmetic on NaN propagates, modelled by `Option`-strict operations;
 - DataFrames are lists of structure rows, in row order.
-/

namespace Tiker

/-- Civil (proleptic Gregorian) date from a day number counted from
1970-01-01 (the representation underlying pandas Timestamps).  Returns
(year, month, day).  Valid for any day number from 0000-03-01 onward,
which covers the program's 1980-2024 horizon. -/
def civilParts (z : Int) : Nat × Nat × Nat :=
  let zn : Nat := (z + 719468).toNat
  let era : Nat := zn / 146097
  let doe : Nat := zn % 146097
  let yoe : Nat := (doe - doe / 1460 + doe / 36524 - doe / 146096) / 365
  let doy : Nat := doe - (365 * yoe + yoe / 4 - yoe / 100)
  let mp : Nat := (5 * doy + 2) / 153
  let d : Nat := doy - (153 * mp + 2) / 5 + 1
  let m : Nat := if mp < 10 then mp + 3 else mp - 9
  let y : Nat := yoe + era * 400 + (if m ≤ 2 then 1 else 0)
  (y, m, d)

/-- `series.dt.year` on a date modelled as a day number. -/
def yearOf (z : Int) : Nat := (civilParts z).1

/-- `series.dt.month` on a date modelled as a day number. -/
def monthOf (z : Int) : Nat := (civilParts z).2.1

/-!
## Stage 1: CRSP-CCM link merge

`calculate_indicators`, step 1: `crsp_ccm = crsp_data.merge(ccm_link,
on='permno', how='left')` followed by the validity filter
`(date >= linkdt) & (date <= linkenddt) & gvkey.notna()`.  Rows of the
left merge that found no link partner carry NaN `linkdt`/`gvkey`, and both
the date comparisons and the notna test reject them, so the net effect is
an inner product on `permno` restricted to valid links; the embedding
builds that product directly.  Only the columns the merge touches are
carried; the remaining CRSP payload columns ride along unchanged.
-/

/-- A CRSP monthly observation as seen by the link merge: its `permno`
and `date` (remaining columns are untouched by this stage). -/
structure CrspRow where
  permno : Nat
  date : Int
  deriving DecidableEq, Repr

/-- A row of `ccm_link` (after the load-time SQL filter on
`linktype IN ('LU','LC')` and `linkprim IN ('P','C')`, and with missing
`linkenddt` filled with the 2024-12-31 sentinel). -/
structure LinkRow where
  gvkey : Option Nat
  permno : Nat
  linkdt : Int
  linkenddt : Int
  deriving DecidableEq, Repr

/-- The validity filter applied to a merged (observation, link) pair:
`date >= linkdt`, `date <= linkenddt`, `gvkey` not missing (the merge
itself already required equal `permno`). -/
def validLink (c : CrspRow) (l : LinkRow) : Bool :=
  l.permno == c.permno && decide (l.linkdt ≤ c.date) &&
    decide (c.date ≤ l.linkenddt) && l.gvkey.isSome

/-- `crsp_data.merge(ccm_link, on='permno')` followed by the validity
filter: one output row per (observation, qualifying link) pair, in row
order. -/
def crspCcm (crsp : List CrspRow) (link : List LinkRow) :
    List (CrspRow × LinkRow) :=
  crsp.flatMap (fun c => (link.filter (fun l => validLink c l)).map (fun l => (c, l)))

/-- `drop_duplicates(subset=..., keep='first')`: keep a row exactly when
its key has not been seen on an earlier row, preserving row order
(`seen` accumulates the keys of the rows already kept). -/
def dedupByAux {α β : Type} [DecidableEq β] (key : α → β) (seen : List β) :
    List α → List α
  | [] => []
  | x :: xs =>
    if key x ∈ seen then dedupByAux key seen xs
    else x :: dedupByAux key (key x :: seen) xs

/-- `drop_duplicates(subset=..., keep='first')` on a whole table. -/
def dedupBy {α β : Type} [DecidableEq β] (key : α → β) (xs : List α) : List α :=
  dedupByAux key [] xs

/-- `crsp_ccm.drop_duplicates(subset=['gvkey','date'])` (line 252): the
key is the `(gvkey, date)` pair — `permno` is not part of it. -/
def dropDupGvkeyDate (xs : List (CrspRow × LinkRow)) : List (CrspRow × LinkRow) :=
  dedupBy (fun p => (p.2.gvkey, p.1.date)) xs

/-!
## Stage 2: Compustat processing — book-equity fallback chains

`calculate_indicators`, step 2 (lines 193-203).  Nullable float columns
are `Option ℚ`; pandas column arithmetic propagates NaN, so `+` and `-`
on columns are the `Option`-strict `oadd`/`osub`, and `fillna` is an
ordered first-non-missing choice.  The SQL fetch guarantees `at` is
non-null, but the column is still modelled as nullable like the others.
-/

/-- A `comp.funda` row: gvkey, datadate and the raw accounting columns. -/
structure FundRow where
  gvkey : Nat
  datadate : Int
  at_ : Option ℚ
  lt : Option ℚ
  pstk : Option ℚ
  ceq : Option ℚ
  txditc : Option ℚ
  pstkrv : Option ℚ
  seq : Option ℚ
  pstkl : Option ℚ
  deriving DecidableEq, Repr

/-- `a.fillna(b)` on nullable columns. -/
def fillna (a b : Option ℚ) : Option ℚ :=
  match a with
  | some v => some v
  | none => b

/-- Column addition: NaN-propagating. -/
def oadd (a b : Option ℚ) : Option ℚ :=
  match a, b with
  | some x, some y => some (x + y)
  | _, _ => none

/-- Column subtraction: NaN-propagating. -/
def osub (a b : Option ℚ) : Option ℚ :=
  match a, b with
  | some x, some y => some (x - y)
  | _, _ => none

/-- Line 193: `comp['txditc'] = comp['txditc'].fillna(0)`. -/
def txditc0 (r : FundRow) : ℚ := r.txditc.getD 0

/-- Line 194: `comp['ps'] = pstkrv.fillna(pstkl).fillna(pstk).fillna(0)` —
the resolved preferred stock value. -/
def ps (r : FundRow) : ℚ :=
  (fillna (fillna r.pstkrv r.pstkl) r.pstk).getD 0

/-- Line 195-196:
`comp['se'] = seq.fillna(ceq + pstk.fillna(0)).fillna(at - lt).fillna(0)` —
the resolved stockholders' equity.  Note the second candidate adds
`pstk.fillna(0)` (the raw par value), not the resolved `ps` column. -/
def se (r : FundRow) : ℚ :=
  (fillna (fillna r.seq (oadd r.ceq (some (r.pstk.getD 0))))
    (osub r.at_ r.lt)).getD 0

/-- Line 197: `comp['be'] = se + txditc - ps`. -/
def be (r : FundRow) : ℚ := se r + txditc0 r - ps r

/-- The spec's "first non-missing of a candidate list, else a default"
resolution pattern, written the way the spec phrases it. -/
def firstNonMissing (cands : List (Option ℚ)) (dflt : ℚ) : ℚ :=
  match cands with
  | [] => dflt
  | c :: rest =>
    match c with
    | some v => v
    | none => firstNonMissing rest dflt

/-- The claim's version of the stockholders'-equity resolution: first
non-missing of reported `seq`, `ceq` plus the RESOLVED preferred stock
`ps` (redemption, then liquidation, then par, else 0), `at - lt`, else 0.
Stated from the claim's words, to be compared with the source's `se`. -/
def seClaim (r : FundRow) : ℚ :=
  firstNonMissing [r.seq, oadd r.ceq (some (ps r)), osub r.at_ r.lt] 0

/-- The amended resolution: identical to the claim except that the second
candidate adds the raw preferred PAR value `pstk` (0 when missing), which
is what line 195 computes. -/
def seAmended (r : FundRow) : ℚ :=
  firstNonMissing [r.seq, oadd r.ceq (some (r.pstk.getD 0)), osub r.at_ r.lt] 0

/-- The claim's reading of the preferred-stock resolution (redemption
value, then liquidation value, then par value, else 0). -/
def psSpec (r : FundRow) : ℚ :=
  firstNonMissing [r.pstkrv, r.pstkl, r.pstk] 0

/-!
## Stage 3: the three-tier as-of join

All three tiers operate per `gvkey` group (tier 1 via `by='gvkey'` in
`merge_asof`, tiers 2 and 3 via explicit grouping), so each is modelled
on a single key's list of processed fundamentals records.  A record
carries `datadate`, `available_date` (= datadate + 6 months, computed at
line 203) and `be`.
-/

/-- A processed fundamentals record for one gvkey, as consumed by the
join tiers. -/
structure CompRec where
  datadate : Int
  available_date : Int
  be : ℚ
  deriving DecidableEq, Repr

/-- Tier 1 (lines 281-289): `pd.merge_asof(..., left_on='date',
right_on='available_date', by='gvkey', direction='backward',
tolerance=pd.Timedelta(days=365*5))` — for an observation dated `d`, the
most recent record with `available_date ≤ d` lying within 1825 days;
`none` (NaN `be`, row later dropped) when no such record exists.  For a
group sorted ascending by `available_date` that record is the last
qualifying one. -/
def tier1match (comp : List CompRec) (d : Int) : Option CompRec :=
  (comp.filter (fun c =>
    decide (c.available_date ≤ d) && decide (d - c.available_date ≤ 1825))).getLast?

/-- `np.searchsorted(comp_dates, crsp_date, side='right')` (line 323) on
an array sorted ascending: the insertion point after all equal elements,
i.e. the number of elements `≤ d`. -/
def searchsortedRight (comp : List CompRec) (d : Int) : Nat :=
  comp.countP (fun c => decide (c.available_date ≤ d))

/-- Tier 2 (lines 318-334): per-gvkey match at index
`searchsorted(...) - 1`, kept only when that index is `≥ 0` — i.e. the
last element of the prefix of records with `available_date ≤ d` (the
group is sorted by `available_date` at line 316).  No staleness bound. -/
def tier2match (comp : List CompRec) (d : Int) : Option CompRec :=
  (comp.take (searchsortedRight comp d)).getLast?

/-- Tier 3 (lines 346-367): bucket the records by calendar year of
`datadate`, keep the record with the greatest `datadate` per bucket
(`sort_values(['gvkey','year','datadate']).groupby([...]).last()`), and
join the observation on the calendar year of its own date; rows with no
bucket get NaN `be` and are dropped.  For a group sorted ascending by
`datadate` the bucket's chosen record is the last one of its year. -/
def tier3match (comp : List CompRec) (d : Int) : Option CompRec :=
  (comp.filter (fun c => yearOf c.datadate == yearOf d)).getLast?

/-!
## Stage 4: momentum

Lines 394-399, for one `permno`'s return series in date order (`ret` is
non-null by the SQL filter `a.ret IS NOT NULL`):
`ret_lag1 = ret.shift(1)`;
`ret_cumulative = ret.rolling(window=12, min_periods=8)
  .apply(lambda x: (1+x).prod() - 1)`;
`mom = ret_cumulative - ret_lag1`.
The rolling window at row `i` covers rows `max(0, i-11) .. i` — it
includes the current row.
-/

/-- `ret.shift(1)` evaluated at row `i`: the previous row's return, NaN
at the first row. -/
def retLag1 (rets : List ℚ) (i : Nat) : Option ℚ :=
  match i with
  | 0 => none
  | j + 1 => rets.get? j

/-- `ret.rolling(window=12, min_periods=8).apply((1+x).prod() - 1)`
evaluated at row `i`: the window is the up-to-12 rows ending at `i`
inclusive; NaN when fewer than 8 rows are in the window. -/
def retCumulative (rets : List ℚ) (i : Nat) : Option ℚ :=
  if 8 ≤ ((rets.take (i + 1)).drop (i + 1 - 12)).length
  then some (((((rets.take (i + 1)).drop (i + 1 - 12)).map (fun r => 1 + r)).prod) - 1)
  else none

/-- `mom = ret_cumulative - ret_lag1` at row `i` (NaN-propagating). -/
def mom (rets : List ℚ) (i : Nat) : Option ℚ :=
  match retCumulative rets i, retLag1 rets i with
  | some c, some l => some (c - l)
  | _, _ => none

/-!
## Stage 5: monthly counts and the final filter

Lines 402-408.  The panel at this point has one row per surviving merged
observation; `n` is attached by
`df.groupby(['year','month'])['permno'].transform('count')` — `permno` is
never null, so this is the number of ROWS in the row's (year, month)
group of the pre-filter panel — and only then does
`dropna(subset=['ret','size','bm'])` produce `final_stats`.
-/

/-- A derived-panel row as it stands before the final column selection:
`permno`, `date`, and the (nullable) analysis variables. -/
structure PanelRow where
  permno : Nat
  date : Int
  ret : Option ℚ
  size : Option ℚ
  bm : Option ℚ
  mom : Option ℚ
  deriving DecidableEq, Repr

/-- The (year, month) key of a row (lines 402-403). -/
def ym (r : PanelRow) : Nat × Nat := (yearOf r.date, monthOf r.date)

/-- Line 404: `df['n'] = df.groupby(['year','month'])['permno']
.transform('count')` — each row is paired with the count of (non-null)
`permno` entries, i.e. of rows, in its (year, month) group. -/
def addN (xs : List PanelRow) : List (PanelRow × Nat) :=
  xs.map (fun r => (r, xs.countP (fun s => decide (ym s = ym r))))

/-- Lines 407-408: `final_stats = df[final_columns]
.dropna(subset=['ret','size','bm'])`, applied after `n` was attached. -/
def finalPanel (xs : List PanelRow) : List (PanelRow × Nat) :=
  (addN xs).filter (fun rn => rn.1.ret.isSome && rn.1.size.isSome && rn.1.bm.isSome)

/-!
## Stage 6: cross-sectional statistics

`calculate_descriptive_stats` / `calculate_cross_sectional_stats`
(lines 435-509).  Per (year, month) group of `final_stats` and per
variable, the group's column is dropna'd; an empty result yields the
all-missing row with `count` 0, otherwise count / mean / std / min /
max / skew / kurt and the extended percentile ladder are computed.

Float-valued statistics whose exact value involves a square root
(`std`, `skew`, `kurt`) are carried as the exact central moments they
normalize (`std` as the sample variance `Σ (x-mean)² / (n-1)`, `skew`
as `Σ (x-mean)³`, `kurt` as `Σ (x-mean)⁴`): the float normalizations
(square root, constant factors) are strictly monotone rescalings that
are defined exactly when these moments are, so the fields are `some` /
`none` exactly when the code's values are a number / NaN — which is the
only aspect of these three fields any claim (and any theorem below)
touches.  `std` is NaN for a single observation (`ddof=1`), and the code
gates `skew` at `n ≥ 3` and `kurt` at `n ≥ 4` (lines 488-489), matching
pandas' own definedness. -/

/-- Line 435-436: the extended percentile ladder
`[0.01, 0.02, ..., 0.99]`. -/
def extendedPercentiles : List ℚ :=
  [1/100, 2/100, 3/100, 4/100, 5/100, 10/100, 15/100, 20/100, 25/100,
   30/100, 35/100, 40/100, 45/100, 50/100, 55/100, 60/100, 65/100,
   70/100, 75/100, 80/100, 85/100, 90/100, 95/100, 96/100, 97/100,
   98/100, 99/100]

/-- `group.dropna()`: the present values, in order. -/
def dropna (g : List (Option ℚ)) : List ℚ := g.filterMap id

/-- Linear interpolation of a (sorted) list at the virtual index `h`:
the value at `⌊h⌋` plus the fractional part times the gap to the next
order statistic (the next entry defaults to the current one at the right
edge). -/
def interpSorted (s : List ℚ) (h : ℚ) : ℚ :=
  s.getD (Int.floor h).toNat 0 +
    (h - (((Int.floor h).toNat : Nat) : ℚ)) *
      (s.getD ((Int.floor h).toNat + 1) (s.getD (Int.floor h).toNat 0) -
        s.getD (Int.floor h).toNat 0)

/-- `np.percentile(data, q)` with the default linear interpolation:
sort the data, take the virtual index `h = q/100 * (n-1)`, and
interpolate linearly between the neighbouring order statistics.
Meaningful for nonempty data and `0 ≤ q ≤ 100` (the only way the code
calls it). -/
def npPercentile (data : List ℚ) (q : ℚ) : ℚ :=
  interpSorted (data.insertionSort (· ≤ ·))
    (q / 100 * (((data.insertionSort (· ≤ ·)).length : ℚ) - 1))

/-- Sum of the k-th powers of deviations from the mean, `Σ (x - mean)^k`
— the exact central moment carried for `std` (k = 2, divided by n-1),
`skew` (k = 3) and `kurt` (k = 4). -/
def centralMoment (data : List ℚ) (k : Nat) : ℚ :=
  let m := data.sum / (data.length : ℚ)
  (data.map (fun x => (x - m) ^ k)).sum

/-- One month's cross-sectional statistics row for one variable. -/
structure CSStats where
  count : Nat
  mean : Option ℚ
  std : Option ℚ
  min : Option ℚ
  max : Option ℚ
  skew : Option ℚ
  kurt : Option ℚ
  pcts : List (ℚ × Option ℚ)
  deriving DecidableEq, Repr

/-- The all-missing row returned for a group with zero non-missing
observations (lines 469-479): count 0, every other statistic NaN,
including the whole percentile ladder. -/
def emptyStatsRow : CSStats :=
  ⟨0, none, none, none, none, none, none,
    extendedPercentiles.map (fun p => (p, none))⟩

/-- Minimum of a nonempty list (`data.min()`); 0 on the empty list,
which the caller never passes. -/
def listMin (data : List ℚ) : ℚ :=
  match data with
  | [] => 0
  | x :: xs => xs.foldl (fun a b => if b < a then b else a) x

/-- Maximum of a nonempty list (`data.max()`); 0 on the empty list,
which the caller never passes. -/
def listMax (data : List ℚ) : ℚ :=
  match data with
  | [] => 0
  | x :: xs => xs.foldl (fun a b => if a < b then b else a) x

/-- `calculate_cross_sectional_stats(group)` (lines 466-496): dropna the
group; empty groups yield the all-missing row, nonempty groups the
count, mean, std (NaN for n = 1), min, max, skew (NaN below n = 3), kurt
(NaN below n = 4) and the percentile ladder. -/
def crossSectionalStats (g : List (Option ℚ)) : CSStats :=
  if (dropna g).length = 0 then emptyStatsRow
  else
    { count := (dropna g).length
      mean := some ((dropna g).sum / ((dropna g).length : ℚ))
      std := if 2 ≤ (dropna g).length
        then some (centralMoment (dropna g) 2 / (((dropna g).length : ℚ) - 1))
        else none
      min := some (listMin (dropna g))
      max := some (listMax (dropna g))
      skew := if 3 ≤ (dropna g).length then some (centralMoment (dropna g) 3) else none
      kurt := if 4 ≤ (dropna g).length then some (centralMoment (dropna g) 4) else none
      pcts := extendedPercentiles.map
        (fun p => (p, some (npPercentile (dropna g) (p * 100)))) }

/-- The (year, month) group keys present in the panel (the groups
`groupby(['year','month'])` forms; pandas emits them sorted, but only
membership matters below). -/
def monthKeys (xs : List PanelRow) : List (Nat × Nat) :=
  (xs.map ym).dedup

/-- `final_stats.groupby(['year','month'])[var]
.apply(calculate_cross_sectional_stats)` (line 499) for the variable
selected by `f`: one statistics row per (year, month) key present in the
panel — a key whose values are all missing still contributes a row. -/
def monthlyStats (xs : List PanelRow) (f : PanelRow → Option ℚ) :
    List ((Nat × Nat) × CSStats) :=
  (monthKeys xs).map (fun k =>
    (k, crossSectionalStats ((xs.filter (fun r => decide (ym r = k))).map f)))

/-!
## Helper lemmas
-/

instance instDecAvailRel :
    DecidableRel (fun a b : CompRec => a.available_date ≤ b.available_date) :=
  fun x y => Int.decLe x.available_date y.available_date

lemma mem_of_getLast?_eq {α : Type} {l : List α} {a : α}
    (h : l.getLast? = some a) : a ∈ l := by
  have hne : l ≠ [] := by
    intro e
    rw [e] at h
    simp at h
  rw [List.getLast?_eq_getLast l hne] at h
  have := List.getLast_mem hne
  rw [Option.some_inj] at h
  rw [h] at this
  exact this

lemma sorted_le_getLast {l : List CompRec} {a : CompRec}
    (hs : l.Sorted (fun x y => x.available_date ≤ y.available_date))
    (h : l.getLast? = some a) : ∀ c ∈ l, c.available_date ≤ a.available_date := by
  induction l with
  | nil => simp at h
  | cons x xs ih =>
    rw [List.sorted_cons] at hs
    intro c hc
    cases xs with
    | nil =>
      simp at h hc
      rw [hc, h]
    | cons y ys =>
      rw [List.getLast?_cons_cons] at h
      rcases List.mem_cons.mp hc with hcx | hcxs
      · have ha : a ∈ y :: ys := mem_of_getLast?_eq h
        rw [hcx]
        exact hs.1 a ha
      · exact ih hs.2 h c hcxs

lemma take_countP_eq_filter (comp : List CompRec) (d : Int)
    (hs : comp.Sorted (fun a b => a.available_date ≤ b.available_date)) :
    comp.take (searchsortedRight comp d) =
      comp.filter (fun c => decide (c.available_date ≤ d)) := by
  induction comp with
  | nil => rfl
  | cons c cs ih =>
    rw [List.sorted_cons] at hs
    rw [searchsortedRight, List.countP_cons]
    by_cases hc : c.available_date ≤ d
    · have hdc : (decide (c.available_date ≤ d)) = true := by simp [hc]
      rw [hdc]
      simp only [if_true]
      rw [List.filter_cons_of_pos (by simpa using hc)]
      rw [List.take_succ_cons]
      rw [← searchsortedRight, ih hs.2]
    · have hzero : cs.countP (fun x => decide (x.available_date ≤ d)) = 0 := by
        rw [List.countP_eq_zero]
        intro b hb
        simp only [decide_eq_true_eq]
        intro hbd
        exact hc (le_trans (hs.1 b hb) hbd)
      have hdc : (decide (c.available_date ≤ d)) = false := by simp [hc]
      rw [hdc]
      simp only [Bool.false_eq_true, if_false]
      rw [hzero]
      rw [List.filter_cons_of_neg (by simpa using hc)]
      rw [List.filter_eq_nil_iff.mpr]
      · rfl
      · intro b hb
        simp only [decide_eq_true_eq]
        intro hbd
        exact hc (le_trans (hs.1 b hb) hbd)

/-!
## Claims C1 and C2: the join tiers
-/

/-- C1 counterexample: the claim asserts that the matched fundamentals
record has `availability_date ≤ observation_date` in all three tiers,
but tier 3 (calendar-year fallback) matches the 2020-01-31 observation
(day 18292) to the statement dated 2020-12-31 (day 18627) whose
availability date 2021-06-30 (day 18808) lies AFTER the observation —
a look-ahead.  The record is a well-formed processed record: positive
book equity and availability exactly six months after the statement
date. -/
theorem C1_counterexample_tier3_lookahead :
    tier3match [⟨18627, 18808, 7⟩] 18292 =
        some ({ datadate := 18627, available_date := 18808, be := 7 } : CompRec) ∧
      yearOf 18627 = yearOf 18292 ∧
      ¬ (18808 : Int) ≤ 18292 := by
  refine ⟨by decide, by decide, by decide⟩

/-- C1 amended: no look-ahead holds for tier 1 (the `merge_asof`
backward join) unconditionally, and for tier 2 (the per-key
`searchsorted` match) whenever the group is sorted ascending by
availability date, as the code establishes before searching; tier 3 can
violate it (see the counterexample). -/
theorem C1_amended_tiers12_no_lookahead (comp : List CompRec) (d : Int) (r : CompRec) :
    (tier1match comp d = some r → r.available_date ≤ d) ∧
      (comp.Sorted (fun a b => a.available_date ≤ b.available_date) →
        tier2match comp d = some r → r.available_date ≤ d) := by
  constructor
  · intro h
    have hm := mem_of_getLast?_eq h
    rw [List.mem_filter] at hm
    have h2 := hm.2
    simp only [Bool.and_eq_true, decide_eq_true_eq] at h2
    exact h2.1
  · intro hs h
    rw [tier2match, take_countP_eq_filter comp d hs] at h
    have hm := mem_of_getLast?_eq h
    rw [List.mem_filter] at hm
    have h2 := hm.2
    simpa using h2

/-- C1 witness: the amended theorem applied to a concrete sorted
two-record group and observation date. -/
theorem C1_amended_witness :
    ({ datadate := 17896, available_date := 18077, be := 5 } : CompRec).available_date
      ≤ (18596 : Int) :=
  (C1_amended_tiers12_no_lookahead
      [⟨17896, 18077, 5⟩, ⟨18627, 18808, 7⟩] 18596 ⟨17896, 18077, 5⟩).2
    (by decide) (by decide)

/-- C2 counterexample: clean data — the group is sorted by availability
date (and by statement date), has no duplicate keys, and has exactly one
statement per calendar year (2018 and 2020) — yet for the observation
dated 2020-11-30 (day 18596) tiers 1 and 2 assign `be = 5` (the most
recent available statement, from 2018) while tier 3 assigns `be = 7`
(the same-calendar-year 2020 statement, not yet available), so the three
tiers do NOT agree on every surviving observation. -/
theorem C2_counterexample_tier3_divergence :
    ([⟨17896, 18077, 5⟩, ⟨18627, 18808, 7⟩] : List CompRec).Sorted
        (fun a b => a.available_date ≤ b.available_date) ∧
      yearOf 17896 ≠ yearOf 18627 ∧
      tier1match [⟨17896, 18077, 5⟩, ⟨18627, 18808, 7⟩] 18596 =
        some ({ datadate := 17896, available_date := 18077, be := 5 } : CompRec) ∧
      tier2match [⟨17896, 18077, 5⟩, ⟨18627, 18808, 7⟩] 18596 =
        some ({ datadate := 17896, available_date := 18077, be := 5 } : CompRec) ∧
      tier3match [⟨17896, 18077, 5⟩, ⟨18627, 18808, 7⟩] 18596 =
        some ({ datadate := 18627, available_date := 18808, be := 7 } : CompRec) ∧
      (5 : ℚ) ≠ 7 := by
  refine ⟨by decide, by decide, by decide, by decide, by decide, by norm_num⟩

/-- C2 amended: on a group sorted ascending by availability date, tier 1
returns exactly the record tier 2 returns whenever that record lies
within the five-year (1825-day) staleness tolerance, and drops the
observation otherwise; hence tiers 1 and 2 assign the same `be` to every
observation both retain.  Tier 3 can diverge from them even on clean
data with one statement per calendar year (see the counterexample). -/
theorem C2_amended_tier1_tier2_agree (comp : List CompRec) (d : Int)
    (hs : comp.Sorted (fun a b => a.available_date ≤ b.available_date)) :
    tier1match comp d =
      (match tier2match comp d with
       | some r => if d - r.available_date ≤ 1825 then some r else none
       | none => none) := by
  rw [tier2match, take_countP_eq_filter comp d hs, tier1match]
  have hsplit : comp.filter
      (fun c => decide (c.available_date ≤ d) && decide (d - c.available_date ≤ 1825)) =
      (comp.filter (fun c => decide (c.available_date ≤ d))).filter
        (fun c => decide (d - c.available_date ≤ 1825)) := by
    rw [List.filter_filter]
    congr 1
    funext c
    exact (Bool.and_comm _ _)
  rw [hsplit]
  set m := comp.filter (fun c => decide (c.available_date ≤ d)) with hm
  have hms : m.Sorted (fun a b => a.available_date ≤ b.available_date) :=
    List.Pairwise.filter _ hs
  cases hlast : m.getLast? with
  | none =>
    have : m = [] := List.getLast?_eq_none_iff.mp hlast
    rw [this]
    rfl
  | some l =>
    have hmax : ∀ c ∈ m, c.available_date ≤ l.available_date :=
      sorted_le_getLast hms hlast
    have hne : m ≠ [] := by
      intro e
      rw [e] at hlast
      simp at hlast
    by_cases htol : d - l.available_date ≤ 1825
    · simp only [htol, if_pos]
      have hdecomp : m = m.dropLast ++ [l] := by
        have h1 : m.dropLast ++ [m.getLast hne] = m := List.dropLast_append_getLast hne
        have h2 : m.getLast? = some (m.getLast hne) := List.getLast?_eq_getLast m hne
        rw [hlast] at h2
        rw [Option.some_inj] at h2
        rw [h2]
        exact h1.symm
      rw [hdecomp, List.filter_append]
      have : [l].filter (fun c => decide (d - c.available_date ≤ 1825)) = [l] := by
        rw [List.filter_cons_of_pos (by simpa using htol), List.filter_nil]
      rw [this]
      exact List.getLast?_concat _
    · simp only [htol, if_neg, not_false_iff]
      have : m.filter (fun c => decide (d - c.available_date ≤ 1825)) = [] := by
        rw [List.filter_eq_nil_iff]
        intro c hc
        simp only [decide_eq_true_eq]
        intro hcd
        exact htol (le_trans (by have := hmax c hc; omega) hcd)
      rw [this]
      rfl

/-- C2 witness: the amended theorem applied to the concrete sorted
two-record group at observation day 18596. -/
theorem C2_amended_witness :
    tier1match [⟨17896, 18077, 5⟩, ⟨18627, 18808, 7⟩] (18596 : Int) =
      (match tier2match [⟨17896, 18077, 5⟩, ⟨18627, 18808, 7⟩] (18596 : Int) with
       | some r => if (18596 : Int) - r.available_date ≤ 1825 then some r else none
       | none => none) :=
  C2_amended_tier1_tier2_agree [⟨17896, 18077, 5⟩, ⟨18627, 18808, 7⟩] 18596 (by decide)

/-!
## Claim C3: momentum
-/

/-- C3 counterexample: for twelve consecutive monthly returns all equal
to 0.01, the momentum at the 12th observation computed by the code is
`(1.01^12 - 1) - 0.01` — the rolling window of 12 INCLUDES the current
month, so the compounded part covers all twelve returns — and is NOT the
claimed `(1.01^11 - 1) - 0.01`. -/
theorem C3_counterexample_momentum_window :
    mom (List.replicate 12 (1/100 : ℚ)) 11 =
        some ((101/100 : ℚ) ^ 12 - 1 - 1/100) ∧
      ¬ mom (List.replicate 12 (1/100 : ℚ)) 11 =
        some ((101/100 : ℚ) ^ 11 - 1 - 1/100) := by
  have hcum : retCumulative (List.replicate 12 (1/100 : ℚ)) 11 =
      some ((101/100 : ℚ) ^ 12 - 1) := by
    rw [retCumulative]
    rw [show (11 : Nat) + 1 - 12 = 0 from rfl, List.drop_zero]
    rw [show (11 : Nat) + 1 = 12 from rfl]
    simp only [List.take_replicate, List.length_replicate, List.map_replicate,
      List.prod_replicate]
    norm_num
  have hlag : retLag1 (List.replicate 12 (1/100 : ℚ)) 11 = some (1/100 : ℚ) := rfl
  have hmom : mom (List.replicate 12 (1/100 : ℚ)) 11 =
      some ((101/100 : ℚ) ^ 12 - 1 - 1/100) := by
    rw [mom.eq_def, hcum, hlag]
  refine ⟨hmom, ?_⟩
  rw [hmom]
  intro hbad
  rw [Option.some_inj] at hbad
  norm_num at hbad

/-- C3 amended: for a security whose panel contains exactly 12
consecutive monthly returns, the momentum at the 12th observation is the
12-month compounded return over ALL twelve returns (the rolling window
includes the current month) minus the 1-month-lagged return, i.e.
`∏ (1+r_1 .. 1+r_12) - 1 - r_11`; on the literal returns `[0.01]*12`
this is `(1.01^12 - 1) - 0.01`. -/
theorem C3_amended_momentum_formula (rets : List ℚ) (h : rets.length = 12) :
    mom rets 11 =
      some (((rets.map (fun r => 1 + r)).prod - 1) - rets.getD 10 0) := by
  have h10 : 10 < rets.length := by omega
  have hget : rets.get? 10 = some (rets.getD 10 0) := by
    rw [List.getD_eq_getElem rets 0 h10]
    exact List.get?_eq_get h10
  have ht : rets.take 12 = rets := List.take_of_length_le (by omega)
  have hcum : retCumulative rets 11 =
      some ((rets.map (fun r => 1 + r)).prod - 1) := by
    rw [retCumulative]
    have he : (11 : Nat) + 1 - 12 = 0 := rfl
    rw [he, List.drop_zero]
    have h12 : (11 : Nat) + 1 = 12 := rfl
    rw [h12, ht]
    rw [if_pos (by omega)]
  show (match retCumulative rets 11, retLag1 rets 11 with
        | some c, some l => some (c - l)
        | _, _ => none) = _
  rw [hcum]
  have hlag : retLag1 rets 11 = rets.get? 10 := rfl
  rw [hlag, hget]

/-- C3 witness: the amended formula evaluated on the literal return
series `[0.01] * 12`. -/
theorem C3_amended_witness :
    mom (List.replicate 12 (1/100 : ℚ)) 11 =
      some ((((List.replicate 12 (1/100 : ℚ)).map (fun r => 1 + r)).prod - 1) -
        (List.replicate 12 (1/100 : ℚ)).getD 10 0) :=
  C3_amended_momentum_formula (List.replicate 12 (1/100 : ℚ)) (by decide)

/-!
## Claims C4 (and the merge part of C10): link resolution
-/

/-- C4 counterexample: a link table with two overlapping equal-priority
records for the same `permno` (both already passed the load-time
linktype/linkprim quality filter) and different gvkeys.  The code
performs no selection at all: the merged-and-filtered panel contains
BOTH links for the single (permno, date) observation, so resolution does
not "deterministically select exactly one fundamentals_key". -/
theorem C4_counterexample_no_tiebreak :
    crspCcm [⟨1, 18292⟩]
        [⟨some 10, 1, 0, 20088⟩, ⟨some 20, 1, 0, 20088⟩] =
      [(⟨1, 18292⟩, ⟨some 10, 1, 0, 20088⟩),
       (⟨1, 18292⟩, ⟨some 20, 1, 0, 20088⟩)] ∧
      (some 10 : Option Nat) ≠ some 20 := by
  refine ⟨by decide, by decide⟩

/-- C4 amended: the code keeps EVERY qualifying link: a pair
(observation, link) is in the merged panel exactly when the link's
permno matches, its validity interval `[linkdt, linkenddt]` contains the
observation date, and its gvkey is present — no priority or valid-from
tie-break is applied, and the panel is a pure function of its inputs, so
repeated evaluation returns the same (multi-row) answer. -/
theorem C4_amended_keeps_all_links (crsp : List CrspRow) (link : List LinkRow)
    (c : CrspRow) (l : LinkRow) :
    (c, l) ∈ crspCcm crsp link ↔
      c ∈ crsp ∧ l ∈ link ∧ l.permno = c.permno ∧ l.linkdt ≤ c.date ∧
        c.date ≤ l.linkenddt ∧ l.gvkey ≠ none := by
  simp only [crspCcm, List.mem_flatMap, List.mem_map, List.mem_filter]
  constructor
  · rintro ⟨c', hc', l', ⟨hl', hv⟩, heq⟩
    rw [Prod.mk.injEq] at heq
    obtain ⟨hc'', hl''⟩ := heq
    rw [← hc'', ← hl'']
    rw [validLink] at hv
    simp only [Bool.and_eq_true, beq_iff_eq, decide_eq_true_eq,
      Option.isSome_iff_ne_none] at hv
    exact ⟨hc', hl', hv.1.1.1, hv.1.1.2, hv.1.2, hv.2⟩
  · rintro ⟨hc, hl, hp, h1, h2, hg⟩
    refine ⟨c, hc, l, ⟨hl, ?_⟩, rfl⟩
    rw [validLink]
    simp only [Bool.and_eq_true, beq_iff_eq, decide_eq_true_eq,
      Option.isSome_iff_ne_none]
    exact ⟨⟨⟨hp, h1⟩, h2⟩, hg⟩

/-!
## Claim C5: stockholders'-equity resolution
-/

/-- C5 counterexample: a record with missing `seq`, present `ceq` = 10,
present redemption value `pstkrv` = 5 and missing `pstkl`/`pstk`.  The
claim's resolution gives `ceq + preferred_stock_resolved = 15`, but line
195 adds the raw PAR value `pstk.fillna(0) = 0`, giving 10. -/
theorem C5_counterexample_se_uses_par_value :
    se ⟨1, 0, some 100, some 40, none, some 10, none, some 5, none, none⟩ = 10 ∧
      seClaim ⟨1, 0, some 100, some 40, none, some 10, none, some 5, none, none⟩ = 15 ∧
      (10 : ℚ) ≠ 15 := by
  refine ⟨?_, ?_, by norm_num⟩
  · norm_num [se, fillna, oadd, osub]
  · norm_num [seClaim, firstNonMissing, ps, fillna, oadd, osub]

/-- C5 amended: the resolved stockholders' equity is the first
non-missing of the reported `seq`; `ceq` plus the preferred PAR value
`pstk` (0 when missing) — not the resolved preferred stock `ps`; and
`at - lt`; else 0.  The preferred-stock resolution itself is as the
claim says: first non-missing of redemption, liquidation, par value,
else 0. -/
theorem C5_amended_se_resolution (r : FundRow) :
    se r = seAmended r ∧ ps r = psSpec r := by
  constructor
  · cases hs : r.seq <;> cases hc : r.ceq <;> cases ha : r.at_ <;> cases hl : r.lt <;>
      simp [se, seAmended, firstNonMissing, fillna, oadd, osub, hs, hc, ha, hl]
  · cases h1 : r.pstkrv <;> cases h2 : r.pstkl <;> cases h3 : r.pstk <;>
      simp [ps, psSpec, firstNonMissing, fillna, h1, h2, h3]

/-!
## Claims C6, C7: the monthly count and the final filter
-/

/-- C6 counterexample: a derived panel with two rows for the SAME permno
in the same (year, month) (January 2020).  Both rows survive the final
filter carrying `n = 2` — the row count — while the number of distinct
permnos observed in that (year, month) is 1. -/
theorem C6_counterexample_duplicate_permno :
    ym (⟨1, 18262, some 1, some 1, some 1, none⟩ : PanelRow) =
        ym (⟨1, 18263, some 1, some 1, some 1, none⟩ : PanelRow) ∧
      ((⟨1, 18262, some 1, some 1, some 1, none⟩ : PanelRow), 2) ∈
        finalPanel [⟨1, 18262, some 1, some 1, some 1, none⟩,
                    ⟨1, 18263, some 1, some 1, some 1, none⟩] ∧
      (([⟨1, 18262, some 1, some 1, some 1, none⟩,
         ⟨1, 18263, some 1, some 1, some 1, none⟩] : List PanelRow).map
           (fun r => r.permno)).dedup.length = 1 ∧
      (2 : Nat) ≠ 1 := by
  refine ⟨by decide, by decide, by decide, by decide⟩

/-- C6 amended: the `n` carried by every row of the final panel equals
the number of ROWS (observations, counted with multiplicity) of the
pre-filter derived panel sharing that row's (year, month) — not the
number of distinct permnos, and counted before the final
missing-value filter; all surviving rows of the same (year, month)
carry the same value. -/
theorem C6_amended_row_count (xs : List PanelRow) (r : PanelRow) (k : Nat)
    (h : (r, k) ∈ finalPanel xs) :
    k = xs.countP (fun s => decide (ym s = ym r)) ∧
      ∀ (r2 : PanelRow) (k2 : Nat),
        (r2, k2) ∈ finalPanel xs → ym r2 = ym r → k2 = k := by
  have hcount : ∀ (r' : PanelRow) (k' : Nat), (r', k') ∈ finalPanel xs →
      k' = xs.countP (fun s => decide (ym s = ym r')) := by
    intro r' k' h'
    rw [finalPanel, List.mem_filter] at h'
    rw [addN, List.mem_map] at h'
    obtain ⟨⟨s, hs, heq⟩, -⟩ := h'
    rw [Prod.mk.injEq] at heq
    obtain ⟨h1, h2⟩ := heq
    rw [← h1, ← h2]
  have hk := hcount r k h
  refine ⟨hk, ?_⟩
  intro r2 k2 h2 hym
  rw [hcount r2 k2 h2, hk]
  apply List.countP_congr
  intro s _
  rw [hym]

/-- C6 witness: the amended row count evaluated on the concrete
two-row panel of the counterexample. -/
theorem C6_amended_witness :
    (2 : Nat) = ([⟨1, 18262, some 1, some 1, some 1, none⟩,
        ⟨1, 18263, some 1, some 1, some 1, none⟩] : List PanelRow).countP
        (fun s => decide (ym s = ym ⟨1, 18262, some 1, some 1, some 1, none⟩)) :=
  (C6_amended_row_count _ _ 2 (by decide)).1

/-- C7: the final panel contains exactly those derived rows whose `ret`,
`size` and `bm` are all non-missing (with their attached `n`), and a row
with missing `mom` is retained as long as those three are present. -/
theorem C7_final_filter (xs : List PanelRow) (r : PanelRow) (k : Nat) :
    ((r, k) ∈ finalPanel xs ↔
      (r, k) ∈ addN xs ∧ r.ret.isSome ∧ r.size.isSome ∧ r.bm.isSome) ∧
    ((r, k) ∈ addN xs → r.mom = none → r.ret.isSome → r.size.isSome →
      r.bm.isSome → (r, k) ∈ finalPanel xs) := by
  have hiff : (r, k) ∈ finalPanel xs ↔
      (r, k) ∈ addN xs ∧ r.ret.isSome ∧ r.size.isSome ∧ r.bm.isSome := by
    rw [finalPanel, List.mem_filter]
    simp only [Bool.and_eq_true, and_assoc]
  refine ⟨hiff, ?_⟩
  intro hmem _ h1 h2 h3
  exact hiff.mpr ⟨hmem, h1, h2, h3⟩

/-- C7 witness: a single-row panel whose row has `mom` missing but the
three required fields present is retained with its count. -/
theorem C7_witness :
    ((⟨1, 18262, some 1, some 1, some 1, none⟩ : PanelRow), 1) ∈
      finalPanel [⟨1, 18262, some 1, some 1, some 1, none⟩] :=
  (C7_final_filter [⟨1, 18262, some 1, some 1, some 1, none⟩]
      ⟨1, 18262, some 1, some 1, some 1, none⟩ 1).2
    (by decide) rfl rfl rfl rfl

/-!
## Claim C8: all-missing months keep their row
-/

/-- C8: a (year, month) group present in the panel whose observations of
the analysed variable are all missing yields, in the monthly
cross-sectional time series, a statistics row with `count` 0 and every
other statistic (mean, std, min, max, skew, kurt, and the whole
percentile ladder) missing — the month is not omitted. -/
theorem C8_all_missing_group_row (xs : List PanelRow) (f : PanelRow → Option ℚ)
    (r0 : PanelRow) (hmem : r0 ∈ xs)
    (hnone : ∀ r ∈ xs, ym r = ym r0 → f r = none) :
    (ym r0, emptyStatsRow) ∈ monthlyStats xs f := by
  have hk : ym r0 ∈ monthKeys xs := by
    rw [monthKeys, List.mem_dedup]
    exact List.mem_map_of_mem ym hmem
  have hgroup : dropna ((xs.filter (fun r => decide (ym r = ym r0))).map f) = [] := by
    rw [dropna, List.filterMap_eq_nil_iff]
    intro a ha
    rw [List.mem_map] at ha
    obtain ⟨r, hr, hfr⟩ := ha
    rw [List.mem_filter] at hr
    have : f r = none := hnone r hr.1 (by simpa using hr.2)
    rw [← hfr, this]
    rfl
  have hcs : crossSectionalStats
      ((xs.filter (fun r => decide (ym r = ym r0))).map f) = emptyStatsRow := by
    unfold crossSectionalStats
    rw [hgroup]
    simp
  rw [monthlyStats]
  rw [List.mem_map]
  exact ⟨ym r0, hk, by rw [hcs]⟩

/-- C8 witness: a one-row January-2020 panel whose `mom` is missing
contributes the all-missing statistics row for that month. -/
theorem C8_witness :
    ((2020, 1), emptyStatsRow) ∈
      monthlyStats [⟨1, 18262, some 1, some 1, some 1, none⟩]
        (fun r => r.mom) :=
  C8_all_missing_group_row [⟨1, 18262, some 1, some 1, some 1, none⟩]
    (fun r => r.mom) ⟨1, 18262, some 1, some 1, some 1, none⟩
    (by decide) (by decide)

/-!
## Claim C10: multiplicity of rows from overlapping links
-/

lemma dedupByAux_eq_self {α β : Type} [DecidableEq β] (key : α → β) :
    ∀ (xs : List α) (seen : List β), (xs.map key).Nodup →
      (∀ x ∈ xs, key x ∉ seen) → dedupByAux key seen xs = xs := by
  intro xs
  induction xs with
  | nil => intro seen _ _; rfl
  | cons x tl ih =>
    intro seen hnd hseen
    rw [List.map_cons, List.nodup_cons] at hnd
    rw [dedupByAux, if_neg (hseen x (List.mem_cons_self x tl))]
    congr 1
    apply ih _ hnd.2
    intro y hy
    rw [List.mem_cons]
    rintro (hk | hk)
    · exact hnd.1 (hk ▸ List.mem_map_of_mem key hy)
    · exact hseen y (List.mem_cons_of_mem x hy) hk

lemma countP_crspCcm (link : List LinkRow) (p : Nat) (d : Int) :
    ∀ crsp : List CrspRow,
      (crspCcm crsp link).countP
          (fun pr => pr.1.permno == p && pr.1.date == d) =
        crsp.countP (fun c => c.permno == p && c.date == d) *
          (link.filter (fun l => validLink ⟨p, d⟩ l)).length := by
  intro crsp
  induction crsp with
  | nil => simp [crspCcm]
  | cons c cs ih =>
    rw [crspCcm, List.flatMap_cons, List.countP_append, ← crspCcm, ih]
    rw [List.countP_map, List.countP_cons]
    by_cases hc : c.permno = p ∧ c.date = d
    · have hcb : (c.permno == p && c.date == d) = true := by
        simp [hc.1, hc.2]
      have hceq : c = ⟨p, d⟩ := by
        cases c
        simp only [CrspRow.mk.injEq]
        exact ⟨hc.1, hc.2⟩
      have hconst : ((fun pr : CrspRow × LinkRow => pr.1.permno == p && pr.1.date == d) ∘
          (fun l => (c, l))) = fun _ => true := by
        funext l
        simp [hc.1, hc.2]
      rw [hconst, List.countP_true, hcb, if_pos rfl, hceq]
      ring
    · have hcb : (c.permno == p && c.date == d) = false := by
        rcases not_and_or.mp hc with h | h <;> simp [h]
      have hconst : ((fun pr : CrspRow × LinkRow => pr.1.permno == p && pr.1.date == d) ∘
          (fun l => (c, l))) = fun _ => false := by
        funext l
        rcases not_and_or.mp hc with h | h <;> simp [h]
      rw [hconst, List.countP_false, hcb]
      simp

lemma two_le_length_of_mem_ne {α : Type} {l : List α} {a b : α}
    (ha : a ∈ l) (hb : b ∈ l) (hne : a ≠ b) : 2 ≤ l.length := by
  cases l with
  | nil => simp at ha
  | cons x xs =>
    cases xs with
    | nil =>
      simp at ha hb
      rw [ha, hb] at hne
      exact absurd rfl hne
    | cons y ys =>
      simp only [List.length_cons]
      omega

/-- C10 counterexample: permno 2 has k = 2 qualifying link records with
distinct gvkeys (10 and 20), so the claim asserts 2 joined rows for
(permno 2, day 18292).  But permno 1 (an earlier row) shares gvkey 10 at
the same date, and `drop_duplicates(subset=['gvkey','date'])` — whose key
ignores permno — silently drops permno 2's gvkey-10 row: only 1 row
survives. -/
theorem C10_counterexample_dedup_collision :
    (([⟨some 10, 1, 0, 20088⟩, ⟨some 10, 2, 0, 20088⟩,
        ⟨some 20, 2, 0, 20088⟩] : List LinkRow).filter
          (fun l => validLink ⟨2, 18292⟩ l)).length = 2 ∧
      ((([⟨some 10, 1, 0, 20088⟩, ⟨some 10, 2, 0, 20088⟩,
          ⟨some 20, 2, 0, 20088⟩] : List LinkRow).filter
            (fun l => validLink ⟨2, 18292⟩ l)).map (fun l => l.gvkey)).Nodup ∧
      (dropDupGvkeyDate (crspCcm [⟨1, 18292⟩, ⟨2, 18292⟩]
          [⟨some 10, 1, 0, 20088⟩, ⟨some 10, 2, 0, 20088⟩,
           ⟨some 20, 2, 0, 20088⟩])).countP
        (fun pr => pr.1.permno == 2 && pr.1.date == 18292) = 1 ∧
      (1 : Nat) ≠ 2 := by
  refine ⟨by decide, by decide, by decide, by decide⟩

/-- C10 amended: when the merged panel's (gvkey, date) keys are pairwise
distinct — in particular when no OTHER permno shares a qualifying gvkey
at the same date — an observation present exactly once in the CRSP data
yields one joined row per qualifying link record, all surviving the
(gvkey, date) dedup; without that proviso the dedup can silently drop
rows (see the counterexample).  Each surviving row is then counted with
multiplicity in the monthly period count: two distinct coexisting rows
of one (year, month) force `n ≥ 2` on every row of that group. -/
theorem C10_amended_k_rows_counted (crsp : List CrspRow) (link : List LinkRow)
    (p : Nat) (d : Int)
    (h1 : crsp.countP (fun c => c.permno == p && c.date == d) = 1)
    (h2 : ((crspCcm crsp link).map (fun pr => (pr.2.gvkey, pr.1.date))).Nodup) :
    ((dropDupGvkeyDate (crspCcm crsp link)).countP
        (fun pr => pr.1.permno == p && pr.1.date == d) =
      (link.filter (fun l => validLink ⟨p, d⟩ l)).length) ∧
    ∀ (xs : List PanelRow) (r r2 : PanelRow) (k : Nat),
      r ∈ xs → r2 ∈ xs → r ≠ r2 → ym r2 = ym r → (r, k) ∈ addN xs → 2 ≤ k := by
  constructor
  · rw [dropDupGvkeyDate, dedupBy, dedupByAux_eq_self _ _ _ h2 (by simp)]
    rw [countP_crspCcm link p d crsp, h1, one_mul]
  · intro xs r r2 k hr hr2 hne hym hmem
    rw [addN, List.mem_map] at hmem
    obtain ⟨s, hs, heq⟩ := hmem
    rw [Prod.mk.injEq] at heq
    obtain ⟨hsr, hk⟩ := heq
    rw [← hk, hsr]
    rw [List.countP_eq_length_filter]
    apply two_le_length_of_mem_ne (a := r) (b := r2)
    · rw [List.mem_filter]
      exact ⟨hr, by simp⟩
    · rw [List.mem_filter]
      exact ⟨hr2, by simp [hym]⟩
    · exact hne

/-- C10 witness: a single observation with two qualifying
distinct-gvkey links keeps both joined rows through the dedup. -/
theorem C10_amended_witness :
    (dropDupGvkeyDate (crspCcm [⟨2, 18292⟩]
        [⟨some 10, 2, 0, 20088⟩, ⟨some 20, 2, 0, 20088⟩])).countP
        (fun pr => pr.1.permno == 2 && pr.1.date == 18292) =
      (([⟨some 10, 2, 0, 20088⟩, ⟨some 20, 2, 0, 20088⟩] : List LinkRow).filter
        (fun l => validLink ⟨2, 18292⟩ l)).length :=
  (C10_amended_k_rows_counted [⟨2, 18292⟩]
      [⟨some 10, 2, 0, 20088⟩, ⟨some 20, 2, 0, 20088⟩] 2 18292
      (by decide) (by decide)).1

/-!
## Claim C9: monotonicity of the percentile ladder

The interpolation underlying `np.percentile` is monotone in the virtual
index over a sorted list, hence monotone in the percentile level.
-/

lemma sorted_getD_le (s : List ℚ) (hs : s.Sorted (· ≤ ·)) {i j : Nat}
    (hij : i ≤ j) (hj : j < s.length) : s.getD i 0 ≤ s.getD j 0 := by
  have hi : i < s.length := Nat.lt_of_le_of_lt hij hj
  rw [List.getD_eq_getElem s 0 hi, List.getD_eq_getElem s 0 hj]
  rcases Nat.eq_or_lt_of_le hij with h | h
  · subst h
    exact le_refl _
  · have := List.Sorted.rel_get_of_lt hs
      (a := ⟨i, hi⟩) (b := ⟨j, hj⟩) (Fin.mk_lt_mk.mpr h)
    simpa [List.get_eq_getElem] using this

lemma getD_succ_self_le (s : List ℚ) (hs : s.Sorted (· ≤ ·)) (i : Nat) :
    s.getD i 0 ≤ s.getD (i + 1) (s.getD i 0) := by
  by_cases h : i + 1 < s.length
  · calc s.getD i 0 ≤ s.getD (i + 1) 0 := sorted_getD_le s hs (Nat.le_succ i) h
      _ = s.getD (i + 1) (s.getD i 0) := by
          rw [List.getD_eq_getElem s 0 h, List.getD_eq_getElem s _ h]
  · rw [List.getD_eq_default s _ (Nat.le_of_not_lt h)]

lemma interp_core_mono (s : List ℚ) (hs : s.Sorted (· ≤ ·)) (i1 i2 : Nat)
    (h1 h2 : ℚ) (hi2n : i2 < s.length) (hi12 : i1 ≤ i2)
    (hc1' : h1 ≤ (i1 : ℚ) + 1)
    (hc2 : (i2 : ℚ) ≤ h2) (hcase : i1 = i2 → h1 ≤ h2) :
    s.getD i1 0 + (h1 - (i1 : ℚ)) * (s.getD (i1 + 1) (s.getD i1 0) - s.getD i1 0) ≤
      s.getD i2 0 + (h2 - (i2 : ℚ)) * (s.getD (i2 + 1) (s.getD i2 0) - s.getD i2 0) := by
  have hba1 : s.getD i1 0 ≤ s.getD (i1 + 1) (s.getD i1 0) := getD_succ_self_le s hs i1
  have hba2 : s.getD i2 0 ≤ s.getD (i2 + 1) (s.getD i2 0) := getD_succ_self_le s hs i2
  rcases Nat.eq_or_lt_of_le hi12 with hEq | hlt
  · subst hEq
    have h12 : h1 ≤ h2 := hcase rfl
    have := mul_le_mul_of_nonneg_right (show h1 - (i1:ℚ) ≤ h2 - (i1:ℚ) by linarith)
      (show (0:ℚ) ≤ s.getD (i1 + 1) (s.getD i1 0) - s.getD i1 0 by linarith)
    linarith
  · have hstep : i1 + 1 ≤ i2 := hlt
    have h1n : i1 + 1 < s.length := Nat.lt_of_le_of_lt hstep hi2n
    have hb1 : s.getD (i1 + 1) (s.getD i1 0) = s.getD (i1 + 1) 0 := by
      rw [List.getD_eq_getElem s _ h1n, List.getD_eq_getElem s 0 h1n]
    calc s.getD i1 0 + (h1 - (i1 : ℚ)) *
          (s.getD (i1 + 1) (s.getD i1 0) - s.getD i1 0)
        ≤ s.getD (i1 + 1) (s.getD i1 0) := by nlinarith
      _ = s.getD (i1 + 1) 0 := hb1
      _ ≤ s.getD i2 0 := sorted_getD_le s hs hstep hi2n
      _ ≤ s.getD i2 0 + (h2 - (i2 : ℚ)) *
          (s.getD (i2 + 1) (s.getD i2 0) - s.getD i2 0) := by nlinarith

lemma interpSorted_mono (s : List ℚ) (hs : s.Sorted (· ≤ ·)) (hne : s ≠ [])
    (h1 h2 : ℚ) (h10 : 0 ≤ h1) (h12 : h1 ≤ h2)
    (hub : h2 ≤ (s.length : ℚ) - 1) :
    interpSorted s h1 ≤ interpSorted s h2 := by
  have hlen : 1 ≤ s.length := List.length_pos.mpr hne
  have h20 : (0 : ℚ) ≤ h2 := le_trans h10 h12
  have hf1 : (0 : ℤ) ≤ Int.floor h1 := Int.le_floor.mpr (by exact_mod_cast h10)
  have hf2 : (0 : ℤ) ≤ Int.floor h2 := Int.le_floor.mpr (by exact_mod_cast h20)
  have hcast1 : (((Int.floor h1).toNat : Nat) : ℚ) = ((Int.floor h1 : ℤ) : ℚ) := by
    rw [← Int.cast_natCast, Int.toNat_of_nonneg hf1]
  have hcast2 : (((Int.floor h2).toNat : Nat) : ℚ) = ((Int.floor h2 : ℤ) : ℚ) := by
    rw [← Int.cast_natCast, Int.toNat_of_nonneg hf2]
  have hc1' : h1 ≤ (((Int.floor h1).toNat : Nat) : ℚ) + 1 := by
    rw [hcast1]
    exact le_of_lt (Int.lt_floor_add_one h1)
  have hc2 : (((Int.floor h2).toNat : Nat) : ℚ) ≤ h2 := by
    rw [hcast2]
    exact Int.floor_le h2
  have hi12 : (Int.floor h1).toNat ≤ (Int.floor h2).toNat :=
    Int.toNat_le_toNat (Int.floor_le_floor h12)
  have hfl2 : Int.floor h2 ≤ (s.length : ℤ) - 1 := by
    have h3 : Int.floor h2 ≤ Int.floor ((s.length : ℚ) - 1) := Int.floor_le_floor hub
    have h4 : ((s.length : ℚ) - 1) = (((s.length : ℤ) - 1 : ℤ) : ℚ) := by push_cast; ring
    rwa [h4, Int.floor_intCast] at h3
  have hi2n : (Int.floor h2).toNat < s.length := by omega
  unfold interpSorted
  exact interp_core_mono s hs _ _ h1 h2 hi2n hi12 hc1' hc2 (fun _ => h12)

lemma npPercentile_mono (data : List ℚ) (hne : data ≠ []) {p q : ℚ}
    (hp0 : 0 ≤ p) (hpq : p ≤ q) (hq100 : q ≤ 100) :
    npPercentile data p ≤ npPercentile data q := by
  rw [npPercentile, npPercentile]
  have hs : (data.insertionSort (· ≤ ·)).Sorted (· ≤ ·) :=
    List.sorted_insertionSort (· ≤ ·) data
  have hlen : (data.insertionSort (· ≤ ·)).length = data.length :=
    (List.perm_insertionSort (· ≤ ·) data).length_eq
  have hne' : data.insertionSort (· ≤ ·) ≠ [] := by
    intro h
    apply hne
    have h0 : data.length = 0 := by rw [← hlen, h]; rfl
    exact List.length_eq_zero.mp h0
  have hm0 : (0 : ℚ) ≤ ((data.insertionSort (· ≤ ·)).length : ℚ) - 1 := by
    have h1 : 1 ≤ (data.insertionSort (· ≤ ·)).length := List.length_pos.mpr hne'
    have h2 : (1 : ℚ) ≤ ((data.insertionSort (· ≤ ·)).length : ℚ) := by exact_mod_cast h1
    linarith
  apply interpSorted_mono _ hs hne'
  · exact mul_nonneg (div_nonneg hp0 (by norm_num)) hm0
  · exact mul_le_mul_of_nonneg_right (by linarith) hm0
  · nlinarith

lemma extendedPercentiles_bounds : ∀ p ∈ extendedPercentiles, 0 ≤ p ∧ p ≤ 1 := by
  intro p hp
  fin_cases hp <;> norm_num

/-- C9: for any group of observations with at least one non-missing
value, the percentile values computed at the ladder are monotonically
non-decreasing in the percentile level: for ladder levels p ≤ q the
value stored at p is ≤ the value stored at q. -/
theorem C9_percentile_ladder_monotone (g : List (Option ℚ)) (p q : ℚ)
    (vp vq : Option ℚ) (hne : dropna g ≠ []) (hpq : p ≤ q)
    (hp : (p, vp) ∈ (crossSectionalStats g).pcts)
    (hq : (q, vq) ∈ (crossSectionalStats g).pcts) :
    ∃ a b, vp = some a ∧ vq = some b ∧ a ≤ b := by
  have hlen0 : ¬ (dropna g).length = 0 := by
    intro h
    exact hne (List.length_eq_zero.mp h)
  unfold crossSectionalStats at hp hq
  rw [if_neg hlen0] at hp hq
  simp only [List.mem_map] at hp hq
  obtain ⟨p', hp', hpeq⟩ := hp
  obtain ⟨q', hq', hqeq⟩ := hq
  rw [Prod.mk.injEq] at hpeq hqeq
  obtain ⟨hpp, hpv⟩ := hpeq
  obtain ⟨hqq, hqv⟩ := hqeq
  rw [hpp] at hpv hp'
  rw [hqq] at hqv hq'
  have hbp := extendedPercentiles_bounds p hp'
  have hbq := extendedPercentiles_bounds q hq'
  refine ⟨npPercentile (dropna g) (p * 100), npPercentile (dropna g) (q * 100),
    hpv.symm, hqv.symm, ?_⟩
  exact npPercentile_mono (dropna g) hne
    (by nlinarith [hbp.1]) (by nlinarith) (by nlinarith [hbq.2])

/-- C9 witness: the theorem applied to the concrete group
`[3, 1, 2]` at ladder levels 1% and 99%. -/
theorem C9_witness :
    ∃ a b,
      (some (npPercentile (dropna [some 3, some 1, some 2]) ((1/100 : ℚ) * 100)) =
        some a) ∧
      (some (npPercentile (dropna [some 3, some 1, some 2]) ((99/100 : ℚ) * 100)) =
        some b) ∧
      a ≤ b :=
  C9_percentile_ladder_monotone [some 3, some 1, some 2] (1/100) (99/100)
    (some (npPercentile (dropna [some 3, some 1, some 2]) ((1/100 : ℚ) * 100)))
    (some (npPercentile (dropna [some 3, some 1, some 2]) ((99/100 : ℚ) * 100)))
    (by simp [dropna]) (by norm_num)
    (by
      unfold crossSectionalStats
      rw [if_neg (by simp [dropna])]
      exact List.mem_map_of_mem _ (by unfold extendedPercentiles; simp))
    (by
      unfold crossSectionalStats
      rw [if_neg (by simp [dropna])]
      exact List.mem_map_of_mem _ (by unfold extendedPercentiles; simp))

end Tiker

